import Mathlib

/-!
Shallow embedding of src/refactoring_solid.py: a rule-based validation
pipeline for student course-registration requests.

Python dictionaries are embedded as structures whose fields are Option
types (a missing key is none).  A validate method embeds as a function
RegistrationData -> Option Bool: some b is a normal boolean return, none
is a raised exception (KeyError on a missing required key).  Python
.get(k, d) defaulting is Option.getD; Python truthiness of a string
(None and the empty string are falsy) is modelled explicitly where the
source relies on it.
-/

/-- The student record dictionary (key "mahasiswa").  All keys may be
absent, as in a Python dict. -/
structure Mahasiswa where
  nama : Option String
  max_sks : Option Int
  riwayat_kursus : Option (List String)
deriving DecidableEq, Repr

/-- A selected-course dictionary (one entry of "kursus_terpilih"). -/
structure Kursus where
  nama : Option String
  sks : Option Int
  prasyarat : Option String
  jadwal : Option String
deriving DecidableEq, Repr

/-- The registration-request dictionary passed to every rule. -/
structure RegistrationData where
  mahasiswa : Option Mahasiswa
  kursus_terpilih : Option (List Kursus)
deriving DecidableEq, Repr

/-- data.get("mahasiswa", \x7b\x7d): the student dict, defaulting to empty. -/
def RegistrationData.getMahasiswa (data : RegistrationData) : Mahasiswa :=
  data.mahasiswa.getD ⟨none, none, none⟩

/-- data.get("kursus_terpilih", []): the selection list, defaulting to empty. -/
def RegistrationData.getKursus (data : RegistrationData) : List Kursus :=
  data.kursus_terpilih.getD []

/-- the sum of the sks entries of kursus_terpilih: none when some course lacks
the sks key (Python raises KeyError there). -/
def sumSks : List Kursus → Option Int
  | [] => some 0
  | k :: ks =>
    match k.sks, sumSks ks with
    | some v, some rest => some (v + rest)
    | _, _ => none

namespace SksLimitRule

/-- SksLimitRule.validate: sums the selected credit units and compares
against mahasiswa.get("max_sks", 24); strictly exceeding fails. -/
def validate (data : RegistrationData) : Option Bool :=
  let mahasiswa := data.getMahasiswa
  let kursus_terpilih := data.getKursus
  match sumSks kursus_terpilih with
  | none => none
  | some sks_terpilih =>
    let batas_sks := mahasiswa.max_sks.getD 24
    if sks_terpilih > batas_sks then some false else some true

end SksLimitRule

/-- The Python condition prasyarat and prasyarat not in riwayat_lulus
holds when the prerequisite is a non-empty string absent from the
completed-course set (None and "" are falsy). -/
def prasyaratFails (riwayat_lulus : List String) (k : Kursus) : Bool :=
  match k.prasyarat with
  | none => false
  | some p => decide (p ≠ "" ∧ p ∉ riwayat_lulus)

namespace PrerequisiteRule

/-- The loop of PrerequisiteRule.validate over the selection list.  The
failing branch formats the nama entry of the course, so a failing course without a
nama key raises (none) instead of returning false. -/
def go (riwayat_lulus : List String) : List Kursus → Option Bool
  | [] => some true
  | kursus :: rest =>
    if prasyaratFails riwayat_lulus kursus then
      match kursus.nama with
      | none => none
      | some _ => some false
    else go riwayat_lulus rest

/-- PrerequisiteRule.validate: every selected course with a truthy
prerequisite must have it in mahasiswa.get("riwayat_kursus", []). -/
def validate (data : RegistrationData) : Option Bool :=
  let mahasiswa := data.getMahasiswa
  let kursus_terpilih := data.getKursus
  let riwayat_lulus := mahasiswa.riwayat_kursus.getD []
  go riwayat_lulus kursus_terpilih

end PrerequisiteRule

namespace JadwalBentrokRule

/-- The loop of JadwalBentrokRule.validate: seen collects the values of
kursus.get("jadwal") (so a missing key contributes none, and two missing
keys collide). -/
def go (seen : List (Option String)) : List Kursus → Bool
  | [] => true
  | kursus :: rest =>
    let waktu := kursus.jadwal
    if waktu ∈ seen then false
    else go (waktu :: seen) rest

/-- JadwalBentrokRule.validate: fails on the first course whose time
slot value was already seen; never raises. -/
def validate (data : RegistrationData) : Option Bool :=
  some (go [] data.getKursus)

end JadwalBentrokRule

/-- A rule instance is its validate method. -/
def Rule := RegistrationData → Option Bool

namespace RegistrationService

/-- The rule loop of register_student, instrumented with the number of
rules whose validate was invoked: stops at the first false (or raised)
verdict. -/
def runRules (data : RegistrationData) : List Rule → Option Bool × Nat
  | [] => (some true, 0)
  | rule :: rest =>
    match rule data with
    | none => (none, 1)
    | some false => (some false, 1)
    | some true =>
      let r := runRules data rest
      (r.1, r.2 + 1)

/-- register_student: formats the nama field of the mahasiswa entry before the
loop (raising, with no rule invoked, when either key is missing), then
runs the injected rules in order.  The second component counts invoked
rules. -/
def register_student (rules : List Rule) (data : RegistrationData) :
    Option Bool × Nat :=
  match data.mahasiswa with
  | none => (none, 0)
  | some m =>
    match m.nama with
    | none => (none, 0)
    | some _ => runRules data rules

end RegistrationService

/-- The demonstration rule list aturan_lengkap (SKS limit, prerequisites,
schedule conflicts, in that order). -/
def aturan_lengkap : List Rule :=
  [SksLimitRule.validate, PrerequisiteRule.validate, JadwalBentrokRule.validate]

/-- The demonstration request data_mahasiswa_valid. -/
def data_mahasiswa_valid : RegistrationData :=
  { mahasiswa := some
      { nama := some "Budi", max_sks := some 24,
        riwayat_kursus := some ["DASPRO", "ALGORITMA"] },
    kursus_terpilih := some
      [ { nama := some "STRUKTUR DATA", sks := some 4,
          prasyarat := some "ALGORITMA", jadwal := some "SENIN 10:00" },
        { nama := some "JARINGAN KOMPUTER", sks := some 4,
          prasyarat := none, jadwal := some "SELASA 08:00" } ] }

/-- The demonstration request data_mahasiswa_gagal_sks (Scenario B:
max_sks 8, three 4-unit courses). -/
def data_mahasiswa_gagal_sks : RegistrationData :=
  { mahasiswa := some
      { nama := some "Andi", max_sks := some 8,
        riwayat_kursus := some ["DASPRO", "ALGORITMA"] },
    kursus_terpilih := some
      [ { nama := some "STRUKTUR DATA", sks := some 4,
          prasyarat := some "ALGORITMA", jadwal := some "SENIN 10:00" },
        { nama := some "JARINGAN KOMPUTER", sks := some 4,
          prasyarat := none, jadwal := some "SELASA 08:00" },
        { nama := some "BASIS DATA", sks := some 4,
          prasyarat := none, jadwal := some "RABU 13:00" } ] }

/-- The lookup the nama field of the mahasiswa entry succeeds. -/
def hasName (data : RegistrationData) : Bool :=
  (data.mahasiswa.bind Mahasiswa.nama).isSome

lemma RegistrationService.register_student_eq_runRules (rules : List Rule)
    (data : RegistrationData) (h : hasName data = true) :
    RegistrationService.register_student rules data =
      RegistrationService.runRules data rules := by
  unfold hasName at h
  unfold RegistrationService.register_student
  cases hm : data.mahasiswa with
  | none => rw [hm] at h; simp at h
  | some m =>
    rw [hm] at h
    cases hn : m.nama with
    | none => simp [hn] at h
    | some n => simp [hn]

lemma RegistrationService.register_student_none (rules : List Rule)
    (data : RegistrationData) (h : hasName data = false) :
    RegistrationService.register_student rules data = (none, 0) := by
  unfold hasName at h
  unfold RegistrationService.register_student
  cases hm : data.mahasiswa with
  | none => simp
  | some m =>
    rw [hm] at h
    cases hn : m.nama with
    | none => simp [hn]
    | some n => simp [hn] at h

lemma RegistrationService.runRules_true_iff (data : RegistrationData)
    (rules : List Rule) :
    (RegistrationService.runRules data rules).1 = some true ↔
      ∀ r ∈ rules, r data = some true := by
  induction rules with
  | nil => simp [RegistrationService.runRules]
  | cons rule rest ih =>
    rw [RegistrationService.runRules]
    cases h : rule data with
    | none => simp [h]
    | some b =>
      cases b with
      | false => simp [h]
      | true => simpa [h] using ih

lemma RegistrationService.runRules_shortcircuit (data : RegistrationData)
    (pre post : List Rule) (rule : Rule)
    (hpre : ∀ r ∈ pre, r data = some true) (hr : rule data = some false) :
    RegistrationService.runRules data (pre ++ rule :: post) =
      (some false, pre.length + 1) := by
  induction pre with
  | nil => simp [RegistrationService.runRules, hr]
  | cons p ps ih =>
    have hp : p data = some true := hpre p (by simp)
    have hps : ∀ r ∈ ps, r data = some true := fun r hm => hpre r (by simp [hm])
    rw [List.cons_append, RegistrationService.runRules, hp, ih hps]
    simp

/-- Claim C1: with a student name present, register_student returns true
iff every injected rule validates the request, and on the first rule
returning false it returns false with exactly the rules up to and
including that one invoked (later rules are never evaluated). -/
theorem register_student_iff_all_rules (rules : List Rule)
    (data : RegistrationData) (h : hasName data = true) :
    ((RegistrationService.register_student rules data).1 = some true ↔
      ∀ r ∈ rules, r data = some true) ∧
    (∀ pre rule post, rules = pre ++ rule :: post →
      (∀ r ∈ pre, r data = some true) → rule data = some false →
      RegistrationService.register_student rules data =
        (some false, pre.length + 1)) := by
  rw [RegistrationService.register_student_eq_runRules rules data h]
  refine ⟨RegistrationService.runRules_true_iff data rules, ?_⟩
  intro pre rule post hsplit hpre hr
  rw [hsplit, ← RegistrationService.register_student_eq_runRules _ data h,
    RegistrationService.register_student_eq_runRules _ data h]
  exact RegistrationService.runRules_shortcircuit data pre post rule hpre hr

/-- Witness for C1 at a concrete request and a concrete failing rule. -/
theorem register_student_iff_all_rules_witness :
    RegistrationService.register_student [fun _ => some false]
      data_mahasiswa_valid = (some false, List.length ([] : List Rule) + 1) :=
  (register_student_iff_all_rules [fun _ => some false] data_mahasiswa_valid
    (by decide)).2 [] (fun _ => some false) [] rfl (by simp) rfl

/-- Claim C5: Scenario B (max_sks 8, three 4-unit courses, total 12)
fails registration with exactly one rule invoked: SksLimitRule, first in
aturan_lengkap, returns false and PrerequisiteRule and JadwalBentrokRule
are never reached. -/
theorem scenario_b_shortcircuit :
    RegistrationService.register_student aturan_lengkap
      data_mahasiswa_gagal_sks = (some false, 1) := by decide

/-- Claim C7: register_student is a pure function of the rule list and
the request, so two successive runs on the same immutable request return
the same result. -/
theorem register_student_deterministic (rules : List Rule)
    (data : RegistrationData) :
    RegistrationService.register_student rules data =
      RegistrationService.register_student rules data := rfl

/-- Claim C8: with an empty rule list, register_student succeeds
vacuously on every request that carries a student name. -/
theorem register_student_empty_rules (data : RegistrationData)
    (h : hasName data = true) :
    (RegistrationService.register_student [] data).1 = some true := by
  rw [RegistrationService.register_student_eq_runRules [] data h]
  rfl

/-- Witness for C8: the empty coordinator accepts the demo request. -/
theorem register_student_empty_rules_witness :
    (RegistrationService.register_student [] data_mahasiswa_valid).1 =
      some true :=
  register_student_empty_rules data_mahasiswa_valid (by decide)

/-- batas_sks as computed by SksLimitRule: mahasiswa.get("max_sks", 24). -/
def batas_sks (data : RegistrationData) : Int :=
  data.getMahasiswa.max_sks.getD 24

/-- Claim C2: when every selected course carries its credit units (sum
s), SksLimitRule returns false iff s strictly exceeds the limit and true
iff s is at most the limit (so equality passes), with the limit
defaulting to 24 when max_sks is absent. -/
theorem sks_limit_validate_iff (data : RegistrationData) (s : Int)
    (h : sumSks data.getKursus = some s) :
    (SksLimitRule.validate data = some false ↔ batas_sks data < s) ∧
    (SksLimitRule.validate data = some true ↔ s ≤ batas_sks data) ∧
    (data.getMahasiswa.max_sks = none → batas_sks data = 24) := by
  simp only [SksLimitRule.validate, h]
  by_cases hc : batas_sks data < s
  · have : s > data.getMahasiswa.max_sks.getD 24 := hc
    simp only [if_pos this]
    refine ⟨by simp [hc], by simp [not_le.mpr hc], ?_⟩
    intro hnone; simp [batas_sks, hnone]
  · have : ¬ s > data.getMahasiswa.max_sks.getD 24 := hc
    simp only [if_neg this]
    refine ⟨by simp [hc], by simp [not_lt.mp hc], ?_⟩
    intro hnone; simp [batas_sks, hnone]

/-- Witness for C2: the empty selection sums to 0 and passes against the
default limit 24. -/
theorem sks_limit_validate_iff_witness :
    (SksLimitRule.validate (RegistrationData.mk none none) = some false ↔
      batas_sks (RegistrationData.mk none none) < 0) ∧
    (SksLimitRule.validate (RegistrationData.mk none none) = some true ↔
      (0 : Int) ≤ batas_sks (RegistrationData.mk none none)) ∧
    ((RegistrationData.mk none none).getMahasiswa.max_sks = none →
      batas_sks (RegistrationData.mk none none) = 24) :=
  sks_limit_validate_iff (RegistrationData.mk none none) 0 rfl

/-- The completed-course set riwayat_lulus read by PrerequisiteRule. -/
def riwayatLulus (data : RegistrationData) : List String :=
  data.getMahasiswa.riwayat_kursus.getD []

lemma prasyaratFails_eq_false_iff (riwayat_lulus : List String) (k : Kursus) :
    prasyaratFails riwayat_lulus k = false ↔
      ∀ p, k.prasyarat = some p → p ≠ "" → p ∈ riwayat_lulus := by
  unfold prasyaratFails
  cases hp : k.prasyarat with
  | none => simp
  | some p =>
    simp only [decide_eq_false_iff_not, not_and, not_not]
    constructor
    · intro himp q hq hq'
      cases hq
      exact himp hq'
    · intro himp hne
      exact himp p rfl hne

lemma PrerequisiteRule.go_eq_some_true_iff (riwayat_lulus : List String)
    (ks : List Kursus) :
    PrerequisiteRule.go riwayat_lulus ks = some true ↔
      ∀ k ∈ ks, prasyaratFails riwayat_lulus k = false := by
  induction ks with
  | nil => simp [PrerequisiteRule.go]
  | cons k rest ih =>
    rw [PrerequisiteRule.go]
    by_cases hf : prasyaratFails riwayat_lulus k = true
    · cases hn : k.nama <;> simp [hf, hn]
    · have hf' : prasyaratFails riwayat_lulus k = false := by
        simpa using hf
      simp [hf', ih]

lemma PrerequisiteRule.go_shortcircuit (riwayat_lulus : List String)
    (pre post : List Kursus) (k : Kursus)
    (hpre : ∀ k1 ∈ pre, prasyaratFails riwayat_lulus k1 = false)
    (hk : prasyaratFails riwayat_lulus k = true)
    (hn : k.nama.isSome = true) :
    PrerequisiteRule.go riwayat_lulus (pre ++ k :: post) = some false := by
  induction pre with
  | nil =>
    obtain ⟨n, hn'⟩ := Option.isSome_iff_exists.mp hn
    simp [PrerequisiteRule.go, hk, hn']
  | cons p ps ih =>
    have hp : prasyaratFails riwayat_lulus p = false := hpre p (by simp)
    have hps : ∀ k1 ∈ ps, prasyaratFails riwayat_lulus k1 = false :=
      fun k1 hm => hpre k1 (by simp [hm])
    rw [List.cons_append, PrerequisiteRule.go]
    simp [hp, ih hps]

/-- Modelled from the spec: the reading in the claim of prerequisite
satisfaction, under which any set (non-null) prerequisite — including
the empty string — must appear in the completed-course set. -/
def specPrasyaratOk (riwayat_lulus : List String) (k : Kursus) : Bool :=
  match k.prasyarat with
  | none => true
  | some p => decide (p ∈ riwayat_lulus)

/-- A single course whose prerequisite is set to the empty string, which
is not in the (empty) completed-course history. -/
def data_prasyarat_kosong : RegistrationData :=
  { mahasiswa := some
      { nama := some "Budi", max_sks := some 24, riwayat_kursus := some [] },
    kursus_terpilih := some
      [ { nama := some "STRUKTUR DATA", sks := some 4,
          prasyarat := some "", jadwal := some "SENIN 10:00" } ] }

/-- Counterexample to C3 as stated: a course whose prerequisite is set
(non-null, the empty string) and not in completedCourses, yet
PrerequisiteRule.validate returns true, because Python truthiness treats
the empty string like None. -/
theorem prerequisite_validate_counterexample :
    PrerequisiteRule.validate data_prasyarat_kosong = some true ∧
    ¬ (∀ k ∈ data_prasyarat_kosong.getKursus,
        specPrasyaratOk (riwayatLulus data_prasyarat_kosong) k = true) := by
  decide

/-- Claim C3 (amended): PrerequisiteRule.validate returns true iff every
selected course whose prerequisite is set and non-empty has it in the
completed-course history; it returns false at the first course (carrying
a name field) whose prerequisite is set, non-empty and unmet, with
null, absent or empty prerequisites always satisfied. -/
theorem prerequisite_validate_iff (data : RegistrationData) :
    (PrerequisiteRule.validate data = some true ↔
      ∀ k ∈ data.getKursus, ∀ p, k.prasyarat = some p → p ≠ "" →
        p ∈ riwayatLulus data) ∧
    (∀ pre k post, data.getKursus = pre ++ k :: post →
      (∀ k1 ∈ pre, prasyaratFails (riwayatLulus data) k1 = false) →
      prasyaratFails (riwayatLulus data) k = true → k.nama.isSome = true →
      PrerequisiteRule.validate data = some false) := by
  have hval : PrerequisiteRule.validate data =
      PrerequisiteRule.go (riwayatLulus data) data.getKursus := rfl
  constructor
  · rw [hval, PrerequisiteRule.go_eq_some_true_iff]
    constructor
    · intro hall k hk
      exact (prasyaratFails_eq_false_iff (riwayatLulus data) k).mp (hall k hk)
    · intro hall k hk
      exact (prasyaratFails_eq_false_iff (riwayatLulus data) k).mpr (hall k hk)
  · intro pre k post hsplit hpre hk hn
    rw [hval, hsplit]
    exact PrerequisiteRule.go_shortcircuit (riwayatLulus data) pre post k
      hpre hk hn

/-- Witness for the amended C3: all prerequisites of Scenario A are met. -/
theorem prerequisite_validate_iff_witness :
    PrerequisiteRule.validate data_mahasiswa_valid = some true :=
  (prerequisite_validate_iff data_mahasiswa_valid).1.mpr (by decide)

lemma JadwalBentrokRule.go_nodup_iff (ks : List Kursus) :
    ∀ seen : List (Option String),
      JadwalBentrokRule.go seen ks = true ↔
        (ks.map Kursus.jadwal).Nodup ∧ ∀ k ∈ ks, k.jadwal ∉ seen := by
  induction ks with
  | nil => intro seen; simp [JadwalBentrokRule.go]
  | cons k rest ih =>
    intro seen
    rw [JadwalBentrokRule.go]
    by_cases hm : k.jadwal ∈ seen
    · simp only [if_pos hm]
      simp only [List.mem_cons, false_iff, not_and, Bool.false_eq_true]
      intro _ hall
      exact hall k (Or.inl rfl) hm
    · simp only [if_neg hm, ih (k.jadwal :: seen), List.map_cons,
        List.nodup_cons, List.mem_cons, List.mem_map]
      constructor
      · rintro ⟨hnd, hall⟩
        refine ⟨⟨?_, hnd⟩, ?_⟩
        · rintro ⟨k1, hk1, heq⟩
          exact hall k1 hk1 (Or.inl heq)
        · rintro k1 (rfl | hk1)
          · exact hm
          · intro hseen
            exact hall k1 hk1 (Or.inr hseen)
      · rintro ⟨⟨hnotmem, hnd⟩, hall⟩
        refine ⟨hnd, ?_⟩
        rintro k1 hk1 (heq | hseen)
        · exact hnotmem ⟨k1, hk1, heq⟩
        · exact hall k1 (Or.inr hk1) hseen

/-- Claim C4: JadwalBentrokRule passes iff the read time-slot values of
the selection are pairwise distinct under exact value equality, and a
course whose slot equals that of any earlier course (adjacent or not)
makes it return false. -/
theorem jadwal_validate_iff (data : RegistrationData) :
    (JadwalBentrokRule.validate data = some true ↔
      (data.getKursus.map Kursus.jadwal).Nodup) ∧
    (∀ pre k post, data.getKursus = pre ++ k :: post →
      k.jadwal ∈ pre.map Kursus.jadwal →
      JadwalBentrokRule.validate data = some false) := by
  have hval : ∀ b, JadwalBentrokRule.validate data = some b ↔
      JadwalBentrokRule.go [] data.getKursus = b := by
    intro b
    unfold JadwalBentrokRule.validate
    simp
  constructor
  · rw [hval true, JadwalBentrokRule.go_nodup_iff]
    simp
  · intro pre k post hsplit hdup
    rw [hval false]
    cases hgo : JadwalBentrokRule.go [] data.getKursus with
    | false => rfl
    | true =>
      exfalso
      have hnd := ((JadwalBentrokRule.go_nodup_iff data.getKursus []).mp hgo).1
      rw [hsplit] at hnd
      simp only [List.map_append, List.map_cons] at hnd
      rcases List.nodup_append.mp hnd with ⟨-, -, hdisj⟩
      exact hdisj hdup (by simp)

/-- Witness for C4: the two Scenario A slots are distinct, and a
selection repeating the slot of its first course fails. -/
theorem jadwal_validate_iff_witness :
    JadwalBentrokRule.validate
      { mahasiswa := none,
        kursus_terpilih := some
          [ { nama := some "A", sks := some 2,
              prasyarat := none, jadwal := some "SENIN 10:00" },
            { nama := some "B", sks := some 2,
              prasyarat := none, jadwal := some "SENIN 10:00" } ] } =
      some false :=
  (jadwal_validate_iff _).2
    [{ nama := some "A", sks := some 2,
       prasyarat := none, jadwal := some "SENIN 10:00" }]
    { nama := some "B", sks := some 2,
      prasyarat := none, jadwal := some "SENIN 10:00" }
    [] rfl (by simp)

/-- Claim C10: courses read their slot with a defaulting lookup, so any
selection containing at least two courses without a jadwal key maps both
to the same absent value and JadwalBentrokRule reports a conflict. -/
theorem jadwal_missing_slots_conflict (data : RegistrationData)
    (h : 2 ≤ (data.getKursus.filter
      (fun k => Option.isNone k.jadwal)).length) :
    JadwalBentrokRule.validate data = some false := by
  cases hgo : JadwalBentrokRule.go [] data.getKursus with
  | false =>
    unfold JadwalBentrokRule.validate
    rw [hgo]
  | true =>
    exfalso
    have hnd := ((JadwalBentrokRule.go_nodup_iff data.getKursus []).mp hgo).1
    have hsub : ((data.getKursus.filter
          (fun k => Option.isNone k.jadwal)).map Kursus.jadwal).Sublist
        (data.getKursus.map Kursus.jadwal) :=
      (List.filter_sublist _).map _
    have hnd2 := hnd.sublist hsub
    have hall : ∀ x ∈ (data.getKursus.filter
        (fun k => Option.isNone k.jadwal)).map Kursus.jadwal, x = none := by
      intro x hx
      rcases List.mem_map.mp hx with ⟨k, hk, rfl⟩
      have hk2 := (List.mem_filter.mp hk).2
      simpa [Option.isNone_iff_eq_none] using hk2
    have hlen : 2 ≤ ((data.getKursus.filter
        (fun k => Option.isNone k.jadwal)).map Kursus.jadwal).length := by
      rw [List.length_map]; exact h
    rcases hcase : (data.getKursus.filter
        (fun k => Option.isNone k.jadwal)).map Kursus.jadwal with
      _ | ⟨a, _ | ⟨b, rest⟩⟩
    · rw [hcase] at hlen; simp at hlen
    · rw [hcase] at hlen; simp at hlen
    · have ha : a = none := hall a (by rw [hcase]; simp)
      have hb : b = none := hall b (by rw [hcase]; simp)
      rw [hcase, ha, hb] at hnd2
      simp [List.nodup_cons] at hnd2

/-- Witness for C10: two slotless courses conflict. -/
theorem jadwal_missing_slots_conflict_witness :
    JadwalBentrokRule.validate
      { mahasiswa := none,
        kursus_terpilih := some
          [ { nama := some "A", sks := some 2,
              prasyarat := none, jadwal := none },
            { nama := some "B", sks := some 2,
              prasyarat := none, jadwal := none } ] } = some false :=
  jadwal_missing_slots_conflict _ (by decide)

/-- A course dictionary carries the keys the rules index directly:
sks (summed by SksLimitRule) and nama (formatted by
the failure report of PrerequisiteRule). -/
def kursusWellFormed (k : Kursus) : Bool :=
  k.sks.isSome && k.nama.isSome

/-- A request with student record and selection list present and every
course well-formed. -/
def requestWellFormed (data : RegistrationData) : Bool :=
  data.mahasiswa.isSome && data.kursus_terpilih.isSome &&
    data.getKursus.all kursusWellFormed

lemma sumSks_isSome (ks : List Kursus)
    (h : ∀ k ∈ ks, k.sks.isSome = true) : (sumSks ks).isSome = true := by
  induction ks with
  | nil => simp [sumSks]
  | cons k rest ih =>
    obtain ⟨v, hv⟩ := Option.isSome_iff_exists.mp (h k (by simp))
    obtain ⟨s, hs⟩ := Option.isSome_iff_exists.mp
      (ih (fun k1 hm => h k1 (by simp [hm])))
    simp [sumSks, hv, hs]

lemma PrerequisiteRule.go_isSome (riwayat_lulus : List String)
    (ks : List Kursus) (h : ∀ k ∈ ks, k.nama.isSome = true) :
    (PrerequisiteRule.go riwayat_lulus ks).isSome = true := by
  induction ks with
  | nil => simp [PrerequisiteRule.go]
  | cons k rest ih =>
    rw [PrerequisiteRule.go]
    by_cases hf : prasyaratFails riwayat_lulus k = true
    · obtain ⟨n, hn⟩ := Option.isSome_iff_exists.mp (h k (by simp))
      simp [hf, hn]
    · have hf' : prasyaratFails riwayat_lulus k = false := by simpa using hf
      simp [hf', ih (fun k1 hm => h k1 (by simp [hm]))]

lemma validate_isSome_of_wellformed_kursus (data : RegistrationData)
    (hall : data.getKursus.all kursusWellFormed = true) :
    (SksLimitRule.validate data).isSome = true ∧
    (PrerequisiteRule.validate data).isSome = true ∧
    (JadwalBentrokRule.validate data).isSome = true := by
  rw [List.all_eq_true] at hall
  refine ⟨?_, ?_, by simp [JadwalBentrokRule.validate]⟩
  · have hs : ∀ k ∈ data.getKursus, k.sks.isSome = true := by
      intro k hk
      exact (Bool.and_eq_true_iff.mp (hall k hk)).1
    obtain ⟨s, hsum⟩ := Option.isSome_iff_exists.mp
      (sumSks_isSome data.getKursus hs)
    simp only [SksLimitRule.validate, hsum]
    split <;> simp
  · have hn : ∀ k ∈ data.getKursus, k.nama.isSome = true := by
      intro k hk
      exact (Bool.and_eq_true_iff.mp (hall k hk)).2
    exact PrerequisiteRule.go_isSome _ data.getKursus hn

/-- Claim C6: on a well-formed request each of the three concrete rules
evaluates without raising: every exit of validate is a boolean, never an
error. -/
theorem validate_total_on_wellformed (data : RegistrationData)
    (h : requestWellFormed data = true) :
    (SksLimitRule.validate data).isSome = true ∧
    (PrerequisiteRule.validate data).isSome = true ∧
    (JadwalBentrokRule.validate data).isSome = true := by
  unfold requestWellFormed at h
  simp only [Bool.and_eq_true] at h
  exact validate_isSome_of_wellformed_kursus data h.2

/-- Witness for C6: the Scenario A request is well-formed and all three
rules return a boolean on it. -/
theorem validate_total_on_wellformed_witness :
    (SksLimitRule.validate data_mahasiswa_valid).isSome = true ∧
    (PrerequisiteRule.validate data_mahasiswa_valid).isSome = true ∧
    (JadwalBentrokRule.validate data_mahasiswa_valid).isSome = true :=
  validate_total_on_wellformed data_mahasiswa_valid (by decide)

/-- Claim C9: register_student dereferences the student name before the
rule loop, so when the mahasiswa entry or its nama field is missing the
call raises with no rule invoked; yet every individual rule tolerates an
absent student record (given well-formed courses, each still returns a
boolean). -/
theorem register_student_missing_name (rules : List Rule)
    (data : RegistrationData) (h : hasName data = false) :
    RegistrationService.register_student rules data = (none, 0) ∧
    (data.mahasiswa = none → data.getKursus.all kursusWellFormed = true →
      (SksLimitRule.validate data).isSome = true ∧
      (PrerequisiteRule.validate data).isSome = true ∧
      (JadwalBentrokRule.validate data).isSome = true) := by
  refine ⟨RegistrationService.register_student_none rules data h, ?_⟩
  intro _ hall
  exact validate_isSome_of_wellformed_kursus data hall

/-- Witness for C9: a request with no mahasiswa entry raises before any
of the demonstration rules runs. -/
theorem register_student_missing_name_witness :
    RegistrationService.register_student aturan_lengkap
      (RegistrationData.mk none (some [])) = (none, 0) :=
  (register_student_missing_name aturan_lengkap
    (RegistrationData.mk none (some [])) (by decide)).1
